import Mathlib

/-!
Verification of the Genesis dashboard core (shallow embedding).

The definitions below embed, from the TypeScript sources:
  * the derived overall-status function `getOverallStatus`
    (frontend monitor page),
  * the default "priority" sort comparator and the filter pass of
    `filteredData` (frontend monitor page),
  * the adaptive time-bucketing algorithm `getDynamicBuckets` and the
    per-bucket aggregation of `tokenChartData` (frontend monitor page),
  * the `DataProvider` listener registry, push-message handling, poll
    handling and the live-mode fallback-poll timer lifecycle
    (frontend `lib` provider).

Timestamps are modelled as integers (milliseconds), the JavaScript
status strings as an inductive type, and stateful callback code as
explicit state-passing step functions.
-/

namespace Genesis

/-- Status strings used by entries and stages
(`'enqueued' | 'running' | 'ok' | 'error'`, plus the `'skipped'`
value that stage stats may carry in the mock data). -/
inductive PStatus where
  | enqueued
  | running
  | ok
  | error
  | skipped
deriving DecidableEq, Repr

/-- One entry of `stage_stats`:
`{status, start_time?, end_time?, error_message?}`. -/
structure StageStat where
  status : PStatus
  start_time : Option Int := none
  end_time : Option Int := none
  error_message : Option String := none
deriving DecidableEq, Repr

/-- The fixed stage map `stage_stats`; each stage key may be absent. -/
structure StageStats where
  classification : Option StageStat := none
  sampling : Option StageStat := none
  gemini_query : Option StageStat := none
  normalization : Option StageStat := none
deriving DecidableEq, Repr

/-- A pipeline entry (`CsvProcessingEntry`).  `insertion_date` is the
millisecond timestamp of the ISO string (absent/empty modelled as
`none`); `priority` is absent when the backend sent none. -/
structure CsvProcessingEntry where
  id : String
  filename : String
  status : PStatus
  insertion_date : Option Int := none
  priority : Option Int := none
  stage_stats : Option StageStats := none
  ai_model : Option String := none
  extracted_fields : Option (List String) := none
deriving DecidableEq, Repr

/-- `stageKeys.map(key => entry.stage_stats?.[key])` for the fixed key
list `['classification', 'sampling', 'gemini_query', 'normalization']`. -/
def stageStatuses (e : CsvProcessingEntry) : List (Option StageStat) :=
  match e.stage_stats with
  | none => [none, none, none, none]
  | some ss => [ss.classification, ss.sampling, ss.gemini_query, ss.normalization]

/-- `allStats.some(stat => stat && stat.status === st)`. -/
def stageHas (e : CsvProcessingEntry) (st : PStatus) : Bool :=
  (stageStatuses e).any (fun s => s.elim false (fun x => decide (x.status = st)))

/-- `getOverallStatus` from the monitor page: first matching rule of
error / running / ok / enqueued, combining the entry status with the
four stage statuses. -/
def getOverallStatus (e : CsvProcessingEntry) : PStatus :=
  if e.status = PStatus.error ∨ stageHas e PStatus.error then PStatus.error
  else if e.status = PStatus.running ∨ stageHas e PStatus.running then PStatus.running
  else if e.status = PStatus.ok then PStatus.ok
  else PStatus.enqueued

/-- The five status values an entry exposes: its own status plus the
four (possibly absent) stage statuses. -/
def stageStatusList (e : CsvProcessingEntry) : List (Option PStatus) :=
  (stageStatuses e).map (Option.map StageStat.status)

/-- The §4.3 precedence table, written from the spec's words as a pure
function of the entry status and the list of stage statuses. -/
def specOverallStatus (s : PStatus) (stages : List (Option PStatus)) : PStatus :=
  if s = PStatus.error ∨ some PStatus.error ∈ stages then PStatus.error
  else if s = PStatus.running ∨ some PStatus.running ∈ stages then PStatus.running
  else if s = PStatus.ok then PStatus.ok
  else PStatus.enqueued

theorem any_status_eq_mem (st : PStatus) (l : List (Option StageStat)) :
    (l.any (fun s => s.elim false (fun x => decide (x.status = st))) = true)
      ↔ some st ∈ l.map (Option.map StageStat.status) := by
  induction l with
  | nil => simp
  | cons hd tl ih =>
    cases hd with
    | none =>
      simp only [List.any_cons, List.map_cons, List.mem_cons, Bool.or_eq_true,
        Option.elim_none, Option.map_none']
      rw [ih]
      simp
    | some x =>
      simp only [List.any_cons, List.map_cons, List.mem_cons, Bool.or_eq_true,
        Option.elim_some, Option.map_some', decide_eq_true_eq, Option.some.injEq]
      exact or_congr eq_comm ih

theorem stageHas_eq_mem (e : CsvProcessingEntry) (st : PStatus) :
    (stageHas e st = true) ↔ some st ∈ stageStatusList e :=
  any_status_eq_mem st (stageStatuses e)

/-- C1: for every entry, the derived overall status equals the first
matching rule of the §4.3 precedence table — `error` if the entry
status is error or any stage status is error; else `running` if the
entry status is running or any stage status is running; else `ok` if
the entry status is ok; else `enqueued` — and is therefore a pure
function of the entry status and the four stage statuses. -/
theorem C1_overall_status (e : CsvProcessingEntry) :
    getOverallStatus e = specOverallStatus e.status (stageStatusList e) := by
  unfold getOverallStatus specOverallStatus
  rw [if_congr (or_congr_right (stageHas_eq_mem e PStatus.error)) rfl
    (if_congr (or_congr_right (stageHas_eq_mem e PStatus.running)) rfl rfl)]

/-! ### Filter/sort engine (`filteredData` of the monitor page) -/

/-- `priorityFilter.includes(entry.priority)`: an absent priority is
`undefined`, which is never a member of a numeric filter set. -/
def inPriorityFilter (pf : List Int) (p : Option Int) : Bool :=
  match p with
  | some v => pf.contains v
  | none => false

/-- `a.priority || 3` — JavaScript `||` also replaces the falsy `0`. -/
def jsOr3 : Option Int → Int
  | none => 3
  | some v => if v = 0 then 3 else v

/-- `a.insertion_date ? new Date(a.insertion_date).getTime() : 0`. -/
def dateMs : Option Int → Int
  | none => 0
  | some t => t

/-- The composite comparator of `filteredData` for the default sort key
`'priority'` — the value of the local `comparison` variable after the
four `if (comparison === 0)` blocks. -/
def priorityComparison (pf : List Int) (a b : CsvProcessingEntry) : Int :=
  let c1 : Int :=
    if pf ≠ [] then
      (if inPriorityFilter pf a.priority then 0 else 1)
        - (if inPriorityFilter pf b.priority then 0 else 1)
    else 0
  let c2 : Int :=
    if c1 = 0 then
      (if b.status = PStatus.running then 1 else 0)
        - (if a.status = PStatus.running then 1 else 0)
    else c1
  let c3 : Int := if c2 = 0 then jsOr3 a.priority - jsOr3 b.priority else c2
  if c3 = 0 then dateMs b.insertion_date - dateMs a.insertion_date else c3

/-- `sortConfig.direction === 'ascending' ? comparison : -comparison`. -/
def applyDirection (ascending : Bool) (c : Int) : Int :=
  if ascending then c else -c

/-- The comparator actually passed to `sort` for key `'priority'`. -/
def sortCompare (pf : List Int) (ascending : Bool) (a b : CsvProcessingEntry) : Int :=
  applyDirection ascending (priorityComparison pf a b)

/-- ECMAScript `Array.prototype.sort` is stable and orders by the sign
of the comparator; modelled as a stable insertion sort on the relation
`sortCompare a b ≤ 0`. -/
def sortByPriority (pf : List Int) (ascending : Bool)
    (l : List CsvProcessingEntry) : List CsvProcessingEntry :=
  l.insertionSort (fun a b => sortCompare pf ascending a b ≤ 0)

/-- Sign of a comparator result: the only information `sort` uses. -/
def cmpSign (c : Int) : Int :=
  if c < 0 then -1 else if c = 0 then 0 else 1

/-- Claim-side tier-3 value: "numeric priority ascending, absent
priority treated as 3" (written from the spec's words). -/
def specP3 : Option Int → Int
  | none => 3
  | some v => v

/-- Claim-side comparator, written from the claim's words: four fixed
tiers, each only breaking ties of the previous — (1) active-filter
membership first, (2) running first, (3) numeric priority ascending
with absent priority as 3, (4) `insertion_date` descending. -/
def specPriorityCmp (pf : List Int) (a b : CsvProcessingEntry) : Int :=
  if pf ≠ [] ∧ inPriorityFilter pf a.priority ≠ inPriorityFilter pf b.priority then
    (if inPriorityFilter pf a.priority then -1 else 1)
  else if (decide (a.status = PStatus.running)) ≠ (decide (b.status = PStatus.running)) then
    (if a.status = PStatus.running then -1 else 1)
  else if specP3 a.priority ≠ specP3 b.priority then
    (if specP3 a.priority < specP3 b.priority then -1 else 1)
  else if dateMs a.insertion_date ≠ dateMs b.insertion_date then
    (if dateMs b.insertion_date < dateMs a.insertion_date then -1 else 1)
  else 0

/-- An entry's priority is either absent or the documented 1–5 range. -/
def validPriority (e : CsvProcessingEntry) : Prop :=
  match e.priority with
  | none => True
  | some v => 1 ≤ v ∧ v ≤ 5

instance (e : CsvProcessingEntry) : Decidable (validPriority e) := by
  unfold validPriority
  cases e.priority <;> infer_instance

theorem jsOr3_eq_specP3 {e : CsvProcessingEntry} (h : validPriority e) :
    jsOr3 e.priority = specP3 e.priority := by
  unfold validPriority at h
  cases hp : e.priority with
  | none => rfl
  | some v =>
    rw [hp] at h
    simp only [jsOr3, specP3]
    omega

/-- Scenario entry `A{priority:3, status:ok, insertion:t1}` with
`t1 = 3000`. -/
def entryA : CsvProcessingEntry :=
  { id := "A", filename := "a.csv", status := PStatus.ok,
    insertion_date := some 3000, priority := some 3 }

/-- Scenario entry `B{priority:3, status:running, insertion:t2}` with
`t2 = 2000 < t1`. -/
def entryB : CsvProcessingEntry :=
  { id := "B", filename := "b.csv", status := PStatus.running,
    insertion_date := some 2000, priority := some 3 }

/-- Scenario entry `C{priority:3, status:error, insertion:t3}` with
`t3 = 1000 < t2`. -/
def entryC : CsvProcessingEntry :=
  { id := "C", filename := "c.csv", status := PStatus.error,
    insertion_date := some 1000, priority := some 3 }

-- The four tiers, abstracted over the scalar values they compare: the
-- left side is the code's sequential `comparison` updates, the right
-- side the claim's tier description.  Only the sign is compared
-- because only the sign is observable through `sort`.
set_option maxHeartbeats 1000000 in
theorem tiers_sign (active : Prop) [Decidable active] (fa fb : Bool)
    (ra rb : Prop) [Decidable ra] [Decidable rb] (pa pb da db : Int) :
    cmpSign
      (let c1 : Int := if active then (if fa then 0 else 1) - (if fb then 0 else 1) else 0
       let c2 : Int := if c1 = 0 then (if rb then 1 else 0) - (if ra then 1 else 0) else c1
       let c3 : Int := if c2 = 0 then pa - pb else c2
       if c3 = 0 then db - da else c3)
      = cmpSign
      (if active ∧ fa ≠ fb then (if fa then -1 else 1)
       else if (decide ra) ≠ (decide rb) then (if ra then -1 else 1)
       else if pa ≠ pb then (if pa < pb then -1 else 1)
       else if da ≠ db then (if db < da then -1 else 1) else 0) := by
  by_cases h1 : active <;> cases fa <;> cases fb <;>
    by_cases h2 : ra <;> by_cases h3 : rb <;>
      simp [h1, h2, h3] <;> (unfold cmpSign ; split_ifs <;> omega)

theorem priorityComparison_sign (pf : List Int) (a b : CsvProcessingEntry)
    (ha : validPriority a) (hb : validPriority b) :
    cmpSign (priorityComparison pf a b) = cmpSign (specPriorityCmp pf a b) := by
  have h3 := jsOr3_eq_specP3 ha
  have h4 := jsOr3_eq_specP3 hb
  unfold priorityComparison specPriorityCmp
  rw [h3, h4]
  exact tiers_sign (pf ≠ []) (inPriorityFilter pf a.priority) (inPriorityFilter pf b.priority)
    (a.status = PStatus.running) (b.status = PStatus.running)
    (specP3 a.priority) (specP3 b.priority)
    (dateMs a.insertion_date) (dateMs b.insertion_date)

theorem cmpSign_neg (c : Int) : cmpSign (-c) = - cmpSign c := by
  unfold cmpSign
  split_ifs <;> omega

/-- C4: the default `'priority'` sort is decided by the four fixed
tiers (active-filter membership, running first, numeric priority
ascending with absent as 3, insertion date descending), with the
descending direction negating only the final comparison result; and
the scenario entries A (ok, t1), B (running, t2 < t1),
C (error, t3 < t2) with no active priority filter sort to `[B, A, C]`. -/
theorem C4_priority_sort (pf : List Int) (ascending : Bool)
    (a b : CsvProcessingEntry) (ha : validPriority a) (hb : validPriority b) :
    cmpSign (sortCompare pf ascending a b)
        = cmpSign (applyDirection ascending (specPriorityCmp pf a b))
      ∧ sortByPriority [] true [entryA, entryB, entryC] = [entryB, entryA, entryC] := by
  constructor
  · have h := priorityComparison_sign pf a b ha hb
    unfold sortCompare applyDirection
    cases ascending with
    | false => simpa [cmpSign_neg] using h
    | true => simpa using h
  · decide

/-- Witness for `C4_priority_sort` at a concrete filter, direction
and pair of entries. -/
theorem C4_priority_sort_witness :
    cmpSign (sortCompare [3] true entryA entryB)
        = cmpSign (applyDirection true (specPriorityCmp [3] entryA entryB))
      ∧ sortByPriority [] true [entryA, entryB, entryC] = [entryB, entryA, entryC] :=
  C4_priority_sort [3] true entryA entryB (by decide) (by decide)

/-- Two entries tie on all four tiers of the default sort: same
active-filter membership, same running flag, same tier-3 priority
value, same insertion timestamp. -/
def tie1234 (pf : List Int) (a b : CsvProcessingEntry) : Prop :=
  inPriorityFilter pf a.priority = inPriorityFilter pf b.priority
  ∧ ((a.status = PStatus.running) ↔ (b.status = PStatus.running))
  ∧ jsOr3 a.priority = jsOr3 b.priority
  ∧ dateMs a.insertion_date = dateMs b.insertion_date

instance (pf : List Int) (a b : CsvProcessingEntry) : Decidable (tie1234 pf a b) := by
  unfold tie1234
  infer_instance

/-- The claim's order `enqueued < ok < error` on derived statuses. -/
def statusRank : PStatus → Int
  | PStatus.enqueued => 0
  | PStatus.ok => 1
  | PStatus.error => 2
  | PStatus.running => 3
  | PStatus.skipped => 4

/-- C5 as stated: for entries tying on tiers 1–4, the comparator's
sign is decided by a fifth tier comparing derived secondary status in
the order `enqueued < ok < error`. -/
def C5FifthTierClaim : Prop :=
  ∀ (pf : List Int) (a b : CsvProcessingEntry), tie1234 pf a b →
    cmpSign (priorityComparison pf a b)
      = cmpSign (statusRank (getOverallStatus a) - statusRank (getOverallStatus b))

/-- Tying entry with derived status `error` (same priority, timestamp
and non-running flag as `entryYenq`). -/
def entryXerr : CsvProcessingEntry :=
  { id := "X", filename := "x.csv", status := PStatus.error,
    insertion_date := some 1000, priority := some 3 }

/-- Tying entry with derived status `enqueued`. -/
def entryYenq : CsvProcessingEntry :=
  { id := "Y", filename := "y.csv", status := PStatus.enqueued,
    insertion_date := some 1000, priority := some 3 }

/-- C5 counterexample: `entryXerr` (derived `error`) and `entryYenq`
(derived `enqueued`) tie on tiers 1–4, yet the comparator returns 0 —
the code has no fifth tier, so their order is not decided by derived
secondary status. -/
theorem C5_counterexample : ¬ C5FifthTierClaim := by
  intro h
  exact absurd (h [] entryXerr entryYenq (by decide)) (by decide)

/-- C5 amended: entries tying on tiers 1–4 always compare equal (the
comparator has no fifth tier), so the stable sort keeps their original
relative order — e.g. `[entryXerr, entryYenq]` stays in input order
even though their derived statuses differ. -/
theorem C5_no_fifth_tier (pf : List Int) (a b : CsvProcessingEntry)
    (h : tie1234 pf a b) :
    priorityComparison pf a b = 0
      ∧ sortByPriority [] true [entryXerr, entryYenq] = [entryXerr, entryYenq] := by
  constructor
  · obtain ⟨h1, h2, h3, h4⟩ := h
    unfold priorityComparison
    rw [h1, h3, h4]
    have hrr : (if b.status = PStatus.running then (1:Int) else 0)
        - (if a.status = PStatus.running then 1 else 0) = 0 := by
      by_cases hb : b.status = PStatus.running
      · rw [if_pos hb, if_pos (h2.mpr hb)]; omega
      · rw [if_neg hb, if_neg (fun ha => hb (h2.mp ha))]; omega
    simp only [hrr]
    split_ifs <;> omega
  · decide

/-- Witness for `C5_no_fifth_tier` at the concrete tying pair. -/
theorem C5_no_fifth_tier_witness :
    priorityComparison [] entryXerr entryYenq = 0
      ∧ sortByPriority [] true [entryXerr, entryYenq] = [entryXerr, entryYenq] :=
  C5_no_fifth_tier [] entryXerr entryYenq (by decide)

/-- The priority-filter pass of `filteredData`:
`if (priorityFilter.length > 0) sortableItems =
sortableItems.filter(entry => priorityFilter.includes(entry.priority))`. -/
def priorityFilterStep (pf : List Int) (items : List CsvProcessingEntry) :
    List CsvProcessingEntry :=
  if pf ≠ [] then items.filter (fun e => inPriorityFilter pf e.priority) else items

/-- C10: with a non-empty active priority filter, an entry whose
priority is absent is excluded from the filtered view (no default of 3
is applied during filtering, whatever the filter set contains), while
the same pass's sort tier 3 treats the absent priority as 3. -/
theorem C10_absent_priority (pf : List Int) (items : List CsvProcessingEntry)
    (e : CsvProcessingEntry) (hpf : pf ≠ []) (he : e.priority = none) :
    e ∉ priorityFilterStep pf items ∧ jsOr3 e.priority = 3 := by
  constructor
  · intro hmem
    unfold priorityFilterStep at hmem
    rw [if_pos hpf] at hmem
    have := List.of_mem_filter hmem
    rw [he] at this
    exact absurd this (by simp [inPriorityFilter])
  · rw [he]
    rfl

/-- An entry whose priority field is absent. -/
def entryNoPriority : CsvProcessingEntry :=
  { id := "N", filename := "n.csv", status := PStatus.enqueued,
    priority := none }

/-- Witness for `C10_absent_priority`: the filter set `[3]` containing
the default 3 still excludes an absent-priority entry. -/
theorem C10_absent_priority_witness :
    entryNoPriority ∉ priorityFilterStep [3] [entryNoPriority]
      ∧ jsOr3 entryNoPriority.priority = 3 :=
  C10_absent_priority [3] [entryNoPriority] entryNoPriority (by decide) rfl


/-! ### Bucket aggregator (`getDynamicBuckets` / `tokenChartData`) -/

/-- Millisecond constants of `getDynamicBuckets`. -/
def oneMin : Int := 60 * 1000
def fifteenMin : Int := 15 * oneMin
def thirtyMin : Int := 30 * oneMin
def oneHour : Int := 60 * oneMin
def oneDay : Int := 24 * oneHour

/-- The bucket-width ladder of `getDynamicBuckets`, keyed by the span
`maxTime - minTime`. -/
def bucketSizeMs (totalMs : Int) : Int :=
  if totalMs ≤ 2 * oneHour then fifteenMin
  else if totalMs ≤ 4 * oneHour then thirtyMin
  else if totalMs ≤ oneDay then oneHour
  else if totalMs ≤ 3 * oneDay then 6 * oneHour
  else if totalMs ≤ 7 * oneDay then 12 * oneHour
  else oneDay

/-- The kind of label format chosen alongside the width:
`hourMinute` for `H:MM`, `hourOnly` for `H:00`, `monthDayHour` for
`M/D H:00`, `calendarDate` for `toLocaleDateString`. -/
inductive LabelKind where
  | calendarDate
  | hourMinute
  | hourOnly
  | monthDayHour
deriving DecidableEq, Repr

/-- The `labelFormat` assignment of `getDynamicBuckets`, abstracted to
the kind of format each branch selects. -/
def labelKindOf (totalMs : Int) : LabelKind :=
  if totalMs ≤ 2 * oneHour then LabelKind.hourMinute
  else if totalMs ≤ 4 * oneHour then LabelKind.hourMinute
  else if totalMs ≤ oneDay then LabelKind.hourOnly
  else if totalMs ≤ 3 * oneDay then LabelKind.monthDayHour
  else if totalMs ≤ 7 * oneDay then LabelKind.monthDayHour
  else LabelKind.calendarDate

/-- One produced bucket: its start time and the indices of the samples
that fell into it (`bucketLabels`/`bucketIndices` entries; the label is
`labelFormat(new Date(bucketStart))` and the end is `bucketStart +
bucketSizeMs`). -/
structure TimeBucket where
  bucketStart : Int
  indices : List Nat
deriving DecidableEq, Repr

/-- The inner `for (; i < times.length; i++)` scan of one bucket: it
collects the indices with `bucketStart ≤ t < bucketEnd`, stops at the
first time `≥ bucketEnd` (returning the unconsumed pairs), and skips
times below `bucketStart` (the cursor `i` advances past them for good). -/
def scanBucket : List (Nat × Int) → Int → Int → List Nat × List (Nat × Int)
  | [], _, _ => ([], [])
  | (i, t) :: rest, s, e =>
    if s ≤ t ∧ t < e then
      let r := scanBucket rest s e
      (i :: r.1, r.2)
    else if e ≤ t then ([], (i, t) :: rest)
    else scanBucket rest s e

/-- The `while (bucketStart <= maxTime)` loop.  The JavaScript loop
terminates because the width is positive; here an explicit fuel bounds
the number of iterations, and `bucketFuel` below supplies enough fuel
for the guard — not fuel exhaustion — to end the loop
(`bucketFuel_sufficient`). -/
def buildBuckets : Nat → List (Nat × Int) → Int → Int → Int → List TimeBucket
  | 0, _, _, _, _ => []
  | fuel + 1, pairs, w, maxT, start =>
    if start ≤ maxT then
      let r := scanBucket pairs start (start + w)
      { bucketStart := start, indices := r.1 } :: buildBuckets fuel r.2 w maxT (start + w)
    else []

/-- `Math.min(...times)` (0 for the empty list, which the caller
excludes). -/
def minTimeOf : List Int → Int
  | [] => 0
  | t :: ts => ts.foldl min t

/-- `Math.max(...times)`. -/
def maxTimeOf : List Int → Int
  | [] => 0
  | t :: ts => ts.foldl max t

/-- The chosen `bucketSizeMs` for a sample list. -/
def widthOf (times : List Int) : Int :=
  bucketSizeMs (maxTimeOf times - minTimeOf times)

/-- An upper bound on the loop's iteration count:
`floor(span / width) + 1`. -/
def bucketFuel (times : List Int) : Nat :=
  (maxTimeOf times - minTimeOf times).toNat / (widthOf times).toNat + 1

/-- `getDynamicBuckets`: empty input gives no buckets; otherwise walk
from the minimum to the maximum timestamp in steps of the ladder width,
assigning sample indices to buckets. -/
def getDynamicBuckets (times : List Int) : List TimeBucket :=
  match times with
  | [] => []
  | _ :: _ =>
    buildBuckets (bucketFuel times) times.enum (widthOf times)
      (maxTimeOf times) (minTimeOf times)

/-- Membership of an instant in the union of the buckets, each bucket
covering `[bucketStart, bucketStart + w)`. -/
def inUnionB (w : Int) (bs : List TimeBucket) (t : Int) : Bool :=
  bs.any (fun b => decide (b.bucketStart ≤ t ∧ t < b.bucketStart + w))

/-- The per-bucket sum of `tokenChartData`:
`indices.reduce((acc, i) => acc + (series[i] || 0), 0)`. -/
def bucketAggregate (values : List Int) (b : TimeBucket) : Int :=
  b.indices.foldl (fun acc i => acc + values.getD i 0) 0

theorem bucketSizeMs_pos (s : Int) : 0 < bucketSizeMs s := by
  unfold bucketSizeMs
  split_ifs <;> decide

theorem buildBuckets_nil_of_lt {w maxT start : Int} (h : maxT < start)
    (fuel : Nat) (pairs : List (Nat × Int)) :
    buildBuckets fuel pairs w maxT start = [] := by
  cases fuel with
  | zero => rfl
  | succ n => simp [buildBuckets, not_le.mpr h]

theorem buildBuckets_starts (w maxT : Int) :
    ∀ (k fuel : Nat) (pairs : List (Nat × Int)) (start : Int),
      k < (buildBuckets fuel pairs w maxT start).length →
      ((buildBuckets fuel pairs w maxT start).map TimeBucket.bucketStart).get? k
        = some (start + w * k) := by
  intro k
  induction k with
  | zero =>
    intro fuel pairs start hk
    cases fuel with
    | zero => simp [buildBuckets] at hk
    | succ n =>
      by_cases hs : start ≤ maxT
      · simp [buildBuckets, hs]
      · simp [buildBuckets, hs] at hk
  | succ k ih =>
    intro fuel pairs start hk
    cases fuel with
    | zero => simp [buildBuckets] at hk
    | succ n =>
      by_cases hs : start ≤ maxT
      · simp only [buildBuckets, if_pos hs, List.length_cons] at hk
        simp only [buildBuckets, if_pos hs, List.map_cons, List.get?_cons_succ]
        rw [ih n _ (start + w) (by omega)]
        congr 1
        push_cast
        ring
      · simp [buildBuckets, hs] at hk

theorem buildBuckets_union (w maxT : Int) (hw : 0 < w) :
    ∀ (fuel : Nat) (pairs : List (Nat × Int)) (start t : Int),
      inUnionB w (buildBuckets fuel pairs w maxT start) t = true
        ↔ start ≤ t ∧ t < start + w * ((buildBuckets fuel pairs w maxT start).length : Int) := by
  intro fuel
  induction fuel with
  | zero =>
    intro pairs start t
    simp only [buildBuckets, inUnionB, List.any_nil, List.length_nil]
    constructor
    · intro h; exact absurd h (by simp)
    · intro h; push_cast at h; omega
  | succ n ih =>
    intro pairs start t
    by_cases hs : start ≤ maxT
    · simp only [buildBuckets, if_pos hs, inUnionB, List.any_cons, List.length_cons,
        Bool.or_eq_true, decide_eq_true_eq] at *
      rw [ih (scanBucket pairs start (start + w)).2 (start + w) t]
      have hL : (0:Int) ≤ w * ((buildBuckets n (scanBucket pairs start (start + w)).2 w maxT (start + w)).length : Int) :=
        mul_nonneg hw.le (Int.natCast_nonneg _)
      set L : Int := ((buildBuckets n (scanBucket pairs start (start + w)).2 w maxT (start + w)).length : Int) with hLdef
      have hcast : w * ((((buildBuckets n (scanBucket pairs start (start + w)).2 w maxT (start + w)).length) + 1 : Nat) : Int) = w * L + w := by
        push_cast
        ring
      rw [hcast]
      constructor
      · rintro (h | h) <;> omega
      · intro h
        by_cases ht : t < start + w
        · left; omega
        · right; omega
    · rw [buildBuckets_nil_of_lt (not_le.mp hs) (n+1) pairs]
      simp only [inUnionB, List.any_nil, List.length_nil]
      constructor
      · intro h; exact absurd h (by simp)
      · intro h; push_cast at h; omega

theorem buildBuckets_lastEnd (w maxT : Int) (hw : 0 < w) :
    ∀ (fuel : Nat) (pairs : List (Nat × Int)) (start : Int),
      (maxT - start).toNat < fuel * w.toNat → start ≤ maxT →
      maxT < start + w * ((buildBuckets fuel pairs w maxT start).length : Int) := by
  intro fuel
  induction fuel with
  | zero =>
    intro pairs start hfuel hs
    omega
  | succ n ih =>
    intro pairs start hfuel hs
    simp only [buildBuckets, if_pos hs, List.length_cons]
    by_cases h2 : start + w ≤ maxT
    · have hfuel2 : (maxT - (start + w)).toNat < n * w.toNat := by
        rw [Nat.succ_mul] at hfuel
        set A := n * w.toNat with hA
        omega
      have hrec := ih (scanBucket pairs start (start + w)).2 (start + w) hfuel2 h2
      set L : Int := ((buildBuckets n (scanBucket pairs start (start + w)).2 w maxT (start + w)).length : Int) with hLdef
      have hcast : w * ((((buildBuckets n (scanBucket pairs start (start + w)).2 w maxT (start + w)).length) + 1 : Nat) : Int) = w * L + w := by
        push_cast
        ring
      rw [hcast]
      omega
    · rw [buildBuckets_nil_of_lt (by omega) n (scanBucket pairs start (start + w)).2]
      simp only [List.length_nil]
      have : w * (((0 + 1 : Nat)) : Int) = w := by push_cast; ring
      rw [Nat.zero_add] at this ⊢
      rw [this]
      omega

theorem scanBucket_spec (s e : Int) :
    ∀ (pairs : List (Nat × Int)),
      pairs.Pairwise (fun p q => p.2 ≤ q.2) →
      (∀ p ∈ pairs, s ≤ p.2) →
      (scanBucket pairs s e).1 ++ ((scanBucket pairs s e).2.map Prod.fst)
          = pairs.map Prod.fst
        ∧ (scanBucket pairs s e).2.Sublist pairs
        ∧ (∀ p ∈ (scanBucket pairs s e).2, e ≤ p.2) := by
  intro pairs
  induction pairs with
  | nil => intro _ _; simp [scanBucket]
  | cons hd tl ih =>
    intro hsorted hlow
    obtain ⟨i, t⟩ := hd
    have hst : s ≤ t := hlow (i, t) (List.mem_cons_self _ _)
    have htl_low : ∀ p ∈ tl, s ≤ p.2 := fun p hp => hlow p (List.mem_cons_of_mem _ hp)
    have htl_sorted : tl.Pairwise (fun p q => p.2 ≤ q.2) := hsorted.of_cons
    have hle : ∀ p ∈ tl, t ≤ p.2 := fun p hp => (List.pairwise_cons.mp hsorted).1 p hp
    by_cases hin : s ≤ t ∧ t < e
    · have := ih htl_sorted htl_low
      simp only [scanBucket, if_pos hin]
      refine ⟨?_, ?_, this.2.2⟩
      · simpa using this.1
      · exact this.2.1.cons _
    · have hte : e ≤ t := by omega
      simp only [scanBucket, if_neg hin, if_pos hte]
      refine ⟨by simp, List.Sublist.refl _, ?_⟩
      intro p hp
      rcases List.mem_cons.mp hp with h | h
      · rw [h]; exact hte
      · exact le_trans hte (hle p h)

theorem buildBuckets_join (w maxT : Int) (hw : 0 < w) :
    ∀ (fuel : Nat) (pairs : List (Nat × Int)) (start : Int),
      (maxT - start).toNat < fuel * w.toNat →
      pairs.Pairwise (fun p q => p.2 ≤ q.2) →
      (∀ p ∈ pairs, start ≤ p.2 ∧ p.2 ≤ maxT) →
      ((buildBuckets fuel pairs w maxT start).map TimeBucket.indices).flatten
        = pairs.map Prod.fst := by
  intro fuel
  induction fuel with
  | zero =>
    intro pairs start hfuel _ _
    omega
  | succ n ih =>
    intro pairs start hfuel hsorted hbound
    by_cases hs : start ≤ maxT
    · have hscan := scanBucket_spec start (start + w) pairs hsorted
        (fun p hp => (hbound p hp).1)
      simp only [buildBuckets, if_pos hs, List.map_cons, List.flatten_cons]
      by_cases h2 : start + w ≤ maxT
      · have hfuel2 : (maxT - (start + w)).toNat < n * w.toNat := by
          rw [Nat.succ_mul] at hfuel
          set A := n * w.toNat with hA
          omega
        have hrest_sorted := List.Pairwise.sublist hscan.2.1 hsorted
        have hrest_bound : ∀ p ∈ (scanBucket pairs start (start + w)).2,
            start + w ≤ p.2 ∧ p.2 ≤ maxT := fun p hp =>
          ⟨hscan.2.2 p hp, (hbound p (List.Sublist.mem hp hscan.2.1)).2⟩
        rw [ih (scanBucket pairs start (start + w)).2 (start + w) hfuel2 hrest_sorted hrest_bound]
        exact hscan.1
      · have hrest_nil : (scanBucket pairs start (start + w)).2 = [] := by
          rw [List.eq_nil_iff_forall_not_mem]
          intro p hp
          have h3 := hscan.2.2 p hp
          have h4 := (hbound p (List.Sublist.mem hp hscan.2.1)).2
          omega
        rw [hrest_nil, buildBuckets_nil_of_lt (by omega) n []]
        simpa [hrest_nil] using hscan.1
    · have hnil : pairs = [] := by
        rw [List.eq_nil_iff_forall_not_mem]
        intro p hp
        have := hbound p hp
        omega
      rw [hnil, buildBuckets_nil_of_lt (not_le.mp hs) (n+1) []]
      simp

theorem foldl_add_eq (f : Nat → Int) :
    ∀ (l : List Nat) (acc : Int),
      l.foldl (fun a i => a + f i) acc = acc + (l.map f).sum := by
  intro l
  induction l with
  | nil => intro acc; simp
  | cons hd tl ih =>
    intro acc
    simp only [List.foldl_cons, List.map_cons, List.sum_cons, ih]
    ring

theorem bucketAggregate_eq (values : List Int) (b : TimeBucket) :
    bucketAggregate values b = (b.indices.map (fun i => values.getD i 0)).sum := by
  unfold bucketAggregate
  rw [foldl_add_eq]
  ring

theorem sum_aggregates_eq_flatten (values : List Int) :
    ∀ (bs : List TimeBucket),
      (bs.map (fun b => bucketAggregate values b)).sum
        = (((bs.map TimeBucket.indices).flatten).map (fun i => values.getD i 0)).sum := by
  intro bs
  induction bs with
  | nil => simp
  | cons hd tl ih =>
    rw [List.map_cons, List.sum_cons, List.map_cons, List.flatten_cons, List.map_append,
      List.sum_append, ih, bucketAggregate_eq]

theorem foldl_min_spec :
    ∀ (l : List Int) (a : Int), l.foldl min a ≤ a ∧ ∀ x ∈ l, l.foldl min a ≤ x := by
  intro l
  induction l with
  | nil => intro a; simp
  | cons b tl ih =>
    intro a
    simp only [List.foldl_cons]
    have h := ih (min a b)
    refine ⟨le_trans h.1 (min_le_left a b), ?_⟩
    intro x hx
    rcases List.mem_cons.mp hx with h1 | h1
    · rw [h1]; exact le_trans h.1 (min_le_right a b)
    · exact h.2 x h1

theorem foldl_max_spec :
    ∀ (l : List Int) (a : Int), a ≤ l.foldl max a ∧ ∀ x ∈ l, x ≤ l.foldl max a := by
  intro l
  induction l with
  | nil => intro a; simp
  | cons b tl ih =>
    intro a
    simp only [List.foldl_cons]
    have h := ih (max a b)
    refine ⟨le_trans (le_max_left a b) h.1, ?_⟩
    intro x hx
    rcases List.mem_cons.mp hx with h1 | h1
    · rw [h1]; exact le_trans (le_max_right a b) h.1
    · exact h.2 x h1

theorem mem_time_bounds {times : List Int} (hne : times ≠ []) :
    ∀ x ∈ times, minTimeOf times ≤ x ∧ x ≤ maxTimeOf times := by
  cases times with
  | nil => exact absurd rfl hne
  | cons t ts =>
    intro x hx
    unfold minTimeOf maxTimeOf
    rcases List.mem_cons.mp hx with h | h
    · exact ⟨h ▸ (foldl_min_spec ts t).1, h ▸ (foldl_max_spec ts t).1⟩
    · exact ⟨(foldl_min_spec ts t).2 x h, (foldl_max_spec ts t).2 x h⟩

theorem enum_sorted {times : List Int} (hs : times.Sorted (· ≤ ·)) :
    times.enum.Pairwise (fun p q => p.2 ≤ q.2) := by
  have h : (times.enum.map Prod.snd).Pairwise (· ≤ ·) := by
    rw [List.enum_map_snd]
    exact hs
  exact (List.pairwise_map).mp h

theorem enum_snd_mem {times : List Int} {p : Nat × Int} (hp : p ∈ times.enum) :
    p.2 ∈ times := by
  have : p.2 ∈ times.enum.map Prod.snd := List.mem_map_of_mem Prod.snd hp
  rwa [List.enum_map_snd] at this

theorem bucketFuel_sufficient (times : List Int) :
    (maxTimeOf times - minTimeOf times).toNat
      < bucketFuel times * (widthOf times).toNat := by
  have hw : 0 < widthOf times := bucketSizeMs_pos _
  have hW : 0 < (widthOf times).toNat := by omega
  unfold bucketFuel
  set n := (maxTimeOf times - minTimeOf times).toNat with hn
  set W := (widthOf times).toNat with hWdef
  have h1 : W * (n / W) + n % W = n := Nat.div_add_mod n W
  have h2 : n % W < W := Nat.mod_lt n hW
  have h3 : (n / W + 1) * W = W * (n / W) + W := by ring
  rw [h3]
  omega

theorem minTimeOf_le_maxTimeOf {times : List Int} (hne : times ≠ []) :
    minTimeOf times ≤ maxTimeOf times := by
  cases times with
  | nil => exact absurd rfl hne
  | cons t ts =>
    have h := mem_time_bounds hne t (List.mem_cons_self t ts)
    omega

/-- C2 (amended): for every non-empty sample list sorted ascending,
the buckets start at `minTime` and advance in steps of exactly the
chosen width (hence are contiguous and non-overlapping); their union
is the half-open interval from `minTime` of length
`width * bucketCount`, which strictly covers `maxTime` (so every
sample lies in a bucket, and the union can extend past `maxTime` by up
to one width rather than equalling `[from, to)` exactly); and the
per-bucket aggregates sum to the sum of the series over all samples. -/
theorem C2_buckets (times values : List Int) (hne : times ≠ [])
    (hs : times.Sorted (· ≤ ·)) :
    (∀ k : Nat, k < (getDynamicBuckets times).length →
      ((getDynamicBuckets times).map TimeBucket.bucketStart).get? k
        = some (minTimeOf times + widthOf times * k)) ∧
    (∀ t : Int, inUnionB (widthOf times) (getDynamicBuckets times) t = true ↔
      (minTimeOf times ≤ t ∧
        t < minTimeOf times + widthOf times * ((getDynamicBuckets times).length : Int))) ∧
    (maxTimeOf times
      < minTimeOf times + widthOf times * ((getDynamicBuckets times).length : Int)) ∧
    ((getDynamicBuckets times).map (fun b => bucketAggregate values b)).sum
      = ((List.range times.length).map (fun i => values.getD i 0)).sum := by
  obtain ⟨t, ts, rfl⟩ : ∃ t ts, times = t :: ts := by
    cases times with
    | nil => exact absurd rfl hne
    | cons t ts => exact ⟨t, ts, rfl⟩
  have hw : 0 < widthOf (t :: ts) := bucketSizeMs_pos _
  have hfuel := bucketFuel_sufficient (t :: ts)
  have hminmax := minTimeOf_le_maxTimeOf hne
  have hgd : getDynamicBuckets (t :: ts)
      = buildBuckets (bucketFuel (t :: ts)) (t :: ts).enum (widthOf (t :: ts))
        (maxTimeOf (t :: ts)) (minTimeOf (t :: ts)) := rfl
  refine ⟨?_, ?_, ?_, ?_⟩
  · intro k hk
    rw [hgd] at hk ⊢
    exact buildBuckets_starts _ _ k _ _ _ hk
  · intro x
    rw [hgd]
    exact buildBuckets_union _ _ hw _ _ _ x
  · rw [hgd]
    exact buildBuckets_lastEnd _ _ hw _ _ _ hfuel hminmax
  · rw [hgd, sum_aggregates_eq_flatten,
      buildBuckets_join _ _ hw _ _ _ hfuel (enum_sorted hs)
        (fun p hp => mem_time_bounds hne p.2 (enum_snd_mem hp)),
      List.enum_map_fst]

/-- C2 as stated, at given inputs: the starts are contiguous, the
union of the produced buckets equals exactly the half-open range
`[minTime, maxTime)` of the samples, and per-bucket aggregates sum to
the total. -/
def C2UnionClaim (times values : List Int) : Prop :=
  times ≠ [] → times.Sorted (· ≤ ·) →
    ((∀ k : Nat, k < (getDynamicBuckets times).length →
        ((getDynamicBuckets times).map TimeBucket.bucketStart).get? k
          = some (minTimeOf times + widthOf times * k))
      ∧ (∀ t : Int, inUnionB (widthOf times) (getDynamicBuckets times) t = true ↔
          (minTimeOf times ≤ t ∧ t < maxTimeOf times))
      ∧ ((getDynamicBuckets times).map (fun b => bucketAggregate values b)).sum
          = ((List.range times.length).map (fun i => values.getD i 0)).sum)

/-- C2 counterexample: for the two samples at 0 ms and 10 ms the span
is 10 ms, so one 15-minute bucket `[0, 900000)` is produced; the
instant 10 lies in the union but not in `[minTime, maxTime) = [0, 10)`,
so the union does not equal the sample range. -/
theorem C2_counterexample : ¬ C2UnionClaim [0, 10] [5, 7] := by
  intro h
  have h2 := ((h (by decide) (by decide)).2.1 10).mp (by decide)
  have h3 : maxTimeOf [0, 10] = 10 := by decide
  omega

/-- Witness for `C2_buckets` at the concrete sample list `[0, 10]`
with series `[5, 7]`. -/
theorem C2_buckets_witness :
    (maxTimeOf [0, 10]
      < minTimeOf [0, 10] + widthOf [0, 10] * ((getDynamicBuckets [0, 10]).length : Int)) ∧
    ((getDynamicBuckets [0, 10]).map (fun b => bucketAggregate [5, 7] b)).sum
      = ((List.range ([0, 10] : List Int).length).map
          (fun i => ([5, 7] : List Int).getD i 0)).sum :=
  ⟨(C2_buckets [0, 10] [5, 7] (by decide) (by decide)).2.2.1,
   (C2_buckets [0, 10] [5, 7] (by decide) (by decide)).2.2.2⟩

/-- Label kinds that show only a time of day. -/
def isTimeOfDayLabel : LabelKind → Bool
  | LabelKind.hourMinute => true
  | LabelKind.hourOnly => true
  | _ => false

/-- C3's label sentence as stated: time-of-day labels for sub-day
widths, calendar-date labels for day-or-larger widths. -/
def C3LabelClaim : Prop :=
  ∀ totalMs : Int,
    (bucketSizeMs totalMs < oneDay → isTimeOfDayLabel (labelKindOf totalMs) = true)
    ∧ (oneDay ≤ bucketSizeMs totalMs → labelKindOf totalMs = LabelKind.calendarDate)

/-- C3 counterexample: a 2-day span selects the sub-day 6-hour width,
but its labels are `M/D H:00` — month/day plus hour, not a
time-of-day-only label. -/
theorem C3_counterexample : ¬ C3LabelClaim := by
  intro h
  have h1 := (h (2 * oneDay)).1 (by decide)
  exact absurd h1 (by decide)

/-- C3 (amended): the aggregator picks its width from the fixed ladder
keyed by the span — ≤2h → 15 min, ≤4h → 30 min, ≤24h → 1 h, ≤3d → 6 h,
≤7d → 12 h, else 1 day — in particular a 3-hour span yields 30-minute
buckets; labels are time-of-day for widths up to 1 hour, month/day plus
hour for the 6- and 12-hour widths, and calendar-date for the 1-day
width. -/
theorem C3_ladder (s : Int) (times : List Int) :
    (s ≤ 2 * oneHour → bucketSizeMs s = fifteenMin ∧ labelKindOf s = LabelKind.hourMinute) ∧
    (2 * oneHour < s → s ≤ 4 * oneHour →
      bucketSizeMs s = thirtyMin ∧ labelKindOf s = LabelKind.hourMinute) ∧
    (4 * oneHour < s → s ≤ oneDay →
      bucketSizeMs s = oneHour ∧ labelKindOf s = LabelKind.hourOnly) ∧
    (oneDay < s → s ≤ 3 * oneDay →
      bucketSizeMs s = 6 * oneHour ∧ labelKindOf s = LabelKind.monthDayHour) ∧
    (3 * oneDay < s → s ≤ 7 * oneDay →
      bucketSizeMs s = 12 * oneHour ∧ labelKindOf s = LabelKind.monthDayHour) ∧
    (7 * oneDay < s → bucketSizeMs s = oneDay ∧ labelKindOf s = LabelKind.calendarDate) ∧
    bucketSizeMs (3 * oneHour) = thirtyMin ∧
    widthOf times = bucketSizeMs (maxTimeOf times - minTimeOf times) := by
  have e1 : oneMin = 60000 := by norm_num [oneMin]
  have e2 : fifteenMin = 900000 := by norm_num [fifteenMin, oneMin]
  have e3 : thirtyMin = 1800000 := by norm_num [thirtyMin, oneMin]
  have e4 : oneHour = 3600000 := by norm_num [oneHour, oneMin]
  have e5 : oneDay = 86400000 := by norm_num [oneDay, oneHour, oneMin]
  refine ⟨?_, ?_, ?_, ?_, ?_, ?_, by decide, rfl⟩ <;>
    simp only [bucketSizeMs, labelKindOf, e1, e2, e3, e4, e5] <;>
    intro h1 <;>
    try intro h2
  all_goals split_ifs <;> first | exact ⟨rfl, rfl⟩ | omega

/-- Witness for `C3_ladder` at the 3-hour span of the claim's
scenario. -/
theorem C3_ladder_witness :
    bucketSizeMs (3 * oneHour) = thirtyMin
      ∧ labelKindOf (3 * oneHour) = LabelKind.hourMinute :=
  ⟨(C3_ladder (3 * oneHour) []).2.2.2.2.2.2.1,
   ((C3_ladder (3 * oneHour) []).2.1 (by decide) (by decide)).2⟩


/-! ### DataProvider (listener registry, push channel, fallback polling) -/

/-- Observable effect of one DataProvider callback: a data delivery
`listener(currentData)` or an error notification to an error
listener. -/
inductive Emit where
  | deliver (lid : Nat) (data : List CsvProcessingEntry)
  | errNotify (lid : Nat)
deriving DecidableEq, Repr

/-- The listener-relevant DataProvider state: the two JavaScript `Set`s
(kept as insertion-ordered duplicate-free lists of listener ids) and
`currentData`. -/
structure ProviderState where
  listeners : List Nat
  errorListeners : List Nat
  currentData : List CsvProcessingEntry
deriving DecidableEq, Repr

/-- JS `Set.prototype.add`: no effect when the element is present. -/
def addListener (l : List Nat) (x : Nat) : List Nat :=
  if x ∈ l then l else l ++ [x]

/-- `subscribe(listener, onError?)`: registers both listeners and
immediately calls `listener(this.currentData)`. -/
def subscribe (st : ProviderState) (lid : Nat) (errId : Option Nat) :
    ProviderState × List Emit :=
  ({ st with
      listeners := addListener st.listeners lid,
      errorListeners :=
        match errId with
        | some e => addListener st.errorListeners e
        | none => st.errorListeners },
   [Emit.deliver lid st.currentData])

/-- The unsubscribe closure returned by `subscribe`: deletes both
listeners (JS `Set.prototype.delete`, silently ignoring absence). -/
def unsubscribe (lid : Nat) (errId : Option Nat) (st : ProviderState) : ProviderState :=
  { st with
      listeners := st.listeners.erase lid,
      errorListeners :=
        match errId with
        | some e => st.errorListeners.erase e
        | none => st.errorListeners }

/-- `notifyListeners()`: every data listener receives `currentData`. -/
def notifyAll (st : ProviderState) : List Emit :=
  st.listeners.map (fun l => Emit.deliver l st.currentData)

/-- `notifyErrorListeners(err)`. -/
def notifyErrorsAll (st : ProviderState) : List Emit :=
  st.errorListeners.map Emit.errNotify

/-- `ws.onmessage`: parse the payload; on success replace the snapshot
and notify the data listeners; on parse failure notify the error
listeners and leave the state untouched.  `JSON.parse` is external and
passed in as a function. -/
def onMessage (parse : String → Option (List CsvProcessingEntry))
    (st : ProviderState) (payload : String) : ProviderState × List Emit :=
  match parse payload with
  | some d =>
    let st1 := { st with currentData := d }
    (st1, notifyAll st1)
  | none => (st, notifyErrorsAll st)

/-- `fetchRealData`'s continuation: a successful pull replaces the
snapshot and notifies; a failed pull notifies the error listeners and
keeps the previous snapshot. -/
def onPoll (st : ProviderState) :
    Option (List CsvProcessingEntry) → ProviderState × List Emit
  | some d =>
    let st1 := { st with currentData := d }
    (st1, notifyAll st1)
  | none => (st, notifyErrorsAll st)

/-- The operations that can hit the listener registry. -/
inductive ProviderOp where
  | subscribeOp (lid : Nat) (errId : Option Nat)
  | unsubscribeOp (lid : Nat) (errId : Option Nat)
  | pushMessage (payload : String)
  | pollResult (r : Option (List CsvProcessingEntry))
deriving DecidableEq, Repr

def stepOp (parse : String → Option (List CsvProcessingEntry))
    (st : ProviderState) : ProviderOp → ProviderState × List Emit
  | ProviderOp.subscribeOp lid errId => subscribe st lid errId
  | ProviderOp.unsubscribeOp lid errId => (unsubscribe lid errId st, [])
  | ProviderOp.pushMessage payload => onMessage parse st payload
  | ProviderOp.pollResult r => onPoll st r

/-- Runs a sequence of operations, concatenating the emitted calls in
order — the single-threaded callback model. -/
def runOps (parse : String → Option (List CsvProcessingEntry)) :
    ProviderState → List ProviderOp → ProviderState × List Emit
  | st, [] => (st, [])
  | st, op :: ops =>
    let r1 := stepOp parse st op
    let r2 := runOps parse r1.1 ops
    (r2.1, r1.2 ++ r2.2)

/-- C6: `subscribe` delivers the snapshot current at subscription time
to the new listener synchronously — it is the very first emission of
any run starting with the subscription, before any subsequent update —
and the returned unsubscribe function is idempotent: applying it a
second time leaves the (duplicate-free) listener sets unchanged. -/
theorem C6_subscribe (parse : String → Option (List CsvProcessingEntry))
    (st : ProviderState) (lid : Nat) (errId : Option Nat)
    (ops : List ProviderOp)
    (hl : st.listeners.Nodup) (he : st.errorListeners.Nodup) :
    (runOps parse st (ProviderOp.subscribeOp lid errId :: ops)).2.head?
        = some (Emit.deliver lid st.currentData)
      ∧ unsubscribe lid errId (unsubscribe lid errId st) = unsubscribe lid errId st := by
  constructor
  · simp [runOps, stepOp, subscribe]
  · have h1 : (st.listeners.erase lid).erase lid = st.listeners.erase lid :=
      List.erase_of_not_mem hl.not_mem_erase
    cases errId with
    | none => simp [unsubscribe, h1]
    | some e =>
      have h2 : (st.errorListeners.erase e).erase e = st.errorListeners.erase e :=
        List.erase_of_not_mem he.not_mem_erase
      simp [unsubscribe, h1, h2]

/-- Witness state: one data listener and one error listener. -/
def wState : ProviderState :=
  { listeners := [1], errorListeners := [2], currentData := [] }

/-- Witness for `C6_subscribe` on the concrete state `wState`. -/
theorem C6_subscribe_witness :
    (runOps (fun _ => none) wState (ProviderOp.subscribeOp 5 (some 6) :: [])).2.head?
        = some (Emit.deliver 5 wState.currentData)
      ∧ unsubscribe 5 (some 6) (unsubscribe 5 (some 6) wState)
        = unsubscribe 5 (some 6) wState :=
  C6_subscribe (fun _ => none) wState 5 (some 6) [] (by decide) (by decide)

/-- C7: a push message whose payload fails to parse leaves the state —
in particular the snapshot — unchanged, and notifies exactly the
registered error listeners, in registration order. -/
theorem C7_parse_error (parse : String → Option (List CsvProcessingEntry))
    (st : ProviderState) (payload : String) (h : parse payload = none) :
    (onMessage parse st payload).1 = st
      ∧ (onMessage parse st payload).2 = st.errorListeners.map Emit.errNotify := by
  unfold onMessage
  rw [h]
  exact ⟨rfl, rfl⟩

/-- Witness for `C7_parse_error` with a parser rejecting "oops". -/
theorem C7_parse_error_witness :
    (onMessage (fun _ => none) wState "oops").1 = wState
      ∧ (onMessage (fun _ => none) wState "oops").2
        = wState.errorListeners.map Emit.errNotify :=
  C7_parse_error (fun _ => none) wState "oops" rfl

/-- `notifyListeners` is
`this.listeners.forEach(l => l(this.currentData))` with no try/catch:
an exception thrown by a callback propagates out of `forEach` and
aborts the iteration.  Each listener carries a flag saying whether its
callback throws; the result is the ids whose callback was invoked and
whether an exception escaped. -/
def notifyListenersThrow : List (Nat × Bool) → List Nat × Bool
  | [] => ([], false)
  | (lid, thr) :: rest =>
    if thr then ([lid], true)
    else
      let r := notifyListenersThrow rest
      (lid :: r.1, r.2)

/-- C8 as stated: every registered listener is invoked on every
dispatch, even when another listener's callback throws. -/
def C8IsolationClaim : Prop :=
  ∀ (ls : List (Nat × Bool)), ∀ p ∈ ls, p.1 ∈ (notifyListenersThrow ls).1

/-- C8 at the failing input: with listener 1 throwing and listener 2
registered after it, the dispatch invokes only listener 1 and the
exception escapes — listener 2 never receives the snapshot, so
dispatch is not isolated. -/
theorem C8_not_isolated :
    notifyListenersThrow [(1, true), (2, false)] = ([1], true)
      ∧ ¬ C8IsolationClaim := by
  constructor
  · rfl
  · intro h
    have h2 := h [(1, true), (2, false)] (2, false) (by decide)
    simp [notifyListenersThrow] at h2

/-- Timer lifecycle of live mode: the list of live (uncancelled)
interval timers, the `fallbackInterval` field, and a counter supplying
fresh timer ids. -/
structure ConnState where
  liveTimers : List Nat
  fallbackField : Option Nat
  nextTimer : Nat
deriving DecidableEq, Repr

def initConnState : ConnState :=
  { liveTimers := [], fallbackField := none, nextTimer := 0 }

/-- `clearInterval(this.fallbackInterval); this.fallbackInterval =
null` behind the `if (this.fallbackInterval)` guard. -/
def clearFallback (s : ConnState) : ConnState :=
  match s.fallbackField with
  | some tid => { s with liveTimers := s.liveTimers.erase tid, fallbackField := none }
  | none => s

/-- `if (!this.fallbackInterval) this.fallbackInterval =
setInterval(...)`. -/
def startFallbackIfNone (s : ConnState) : ConnState :=
  match s.fallbackField with
  | some _ => s
  | none =>
    { s with liveTimers := s.nextTimer :: s.liveTimers,
             fallbackField := some s.nextTimer,
             nextTimer := s.nextTimer + 1 }

/-- Lifecycle events of `connectWebSocket`: entering the function (it
first clears any fallback timer; creation may throw, which starts
fallback polling), the `onerror` and `onclose` callbacks (each starts
fallback polling only if none is running), and the `onopen` callback
(cancels fallback polling). -/
inductive ConnEvent where
  | connectOk
  | connectThrow
  | wsError
  | wsClose
  | wsOpen
deriving DecidableEq, Repr

def connStep (s : ConnState) : ConnEvent → ConnState
  | ConnEvent.connectOk => clearFallback s
  | ConnEvent.connectThrow => startFallbackIfNone (clearFallback s)
  | ConnEvent.wsError => startFallbackIfNone s
  | ConnEvent.wsClose => startFallbackIfNone s
  | ConnEvent.wsOpen => clearFallback s

def runConn (evs : List ConnEvent) : ConnState :=
  evs.foldl connStep initConnState

/-- The timer invariant: the live timers are exactly the one recorded
in the `fallbackInterval` field (so there is at most one). -/
def ConnInv (s : ConnState) : Prop :=
  s.liveTimers = s.fallbackField.toList

theorem connInv_clear {s : ConnState} (h : ConnInv s) :
    ConnInv (clearFallback s) ∧ (clearFallback s).liveTimers = []
      ∧ (clearFallback s).fallbackField = none := by
  cases hf : s.fallbackField with
  | none =>
    have hl : s.liveTimers = [] := by
      unfold ConnInv at h
      rw [h, hf]
      rfl
    simp only [clearFallback, hf]
    exact ⟨h, hl, trivial⟩
  | some tid =>
    have hl : s.liveTimers = [tid] := by
      unfold ConnInv at h
      rw [h, hf]
      rfl
    simp only [clearFallback, hf]
    refine ⟨?_, ?_, trivial⟩
    · unfold ConnInv
      simp [hl]
    · simp [hl]

theorem connInv_start {s : ConnState} (h : ConnInv s) :
    ConnInv (startFallbackIfNone s) := by
  cases hf : s.fallbackField with
  | none =>
    have hl : s.liveTimers = [] := by
      unfold ConnInv at h
      rw [h, hf]
      rfl
    simp only [startFallbackIfNone, hf]
    unfold ConnInv
    simp [hl]
  | some tid =>
    simp only [startFallbackIfNone, hf]
    exact h

theorem connInv_step {s : ConnState} (e : ConnEvent) (h : ConnInv s) :
    ConnInv (connStep s e) := by
  cases e with
  | connectOk => exact (connInv_clear h).1
  | connectThrow => exact connInv_start (connInv_clear h).1
  | wsError => exact connInv_start h
  | wsClose => exact connInv_start h
  | wsOpen => exact (connInv_clear h).1

theorem connInv_run (evs : List ConnEvent) : ConnInv (runConn evs) := by
  unfold runConn
  have h : ∀ (l : List ConnEvent) (s : ConnState), ConnInv s → ConnInv (l.foldl connStep s) := by
    intro l
    induction l with
    | nil => intro s hs; exact hs
    | cons e tl ih => intro s hs; exact ih _ (connInv_step e hs)
  exact h evs initConnState rfl

/-- C9: in every state reachable from the initial live-mode state by
connect attempts (successful or throwing), push-channel errors, closes
and opens, at most one fallback-poll timer is live; a new one is
started only if none is running (`startFallbackIfNone` leaves any
state with a recorded timer unchanged); and a successful reopen of the
push channel leaves no live fallback timer. -/
theorem C9_fallback_timer (evs : List ConnEvent) (s : ConnState)
    (hs : s.fallbackField.isSome) :
    (runConn evs).liveTimers.length ≤ 1
      ∧ startFallbackIfNone s = s
      ∧ (connStep (runConn evs) ConnEvent.wsOpen).liveTimers = []
      ∧ (connStep (runConn evs) ConnEvent.wsOpen).fallbackField = none := by
  have hinv := connInv_run evs
  refine ⟨?_, ?_, ?_, ?_⟩
  · unfold ConnInv at hinv
    rw [hinv]
    cases (runConn evs).fallbackField <;> simp
  · unfold startFallbackIfNone
    cases hf : s.fallbackField with
    | none => rw [hf] at hs; simp at hs
    | some tid => rfl
  · exact (connInv_clear hinv).2.1
  · exact (connInv_clear hinv).2.2

/-- Witness for `C9_fallback_timer`: an error-then-close run, and a
state holding a recorded fallback timer. -/
theorem C9_fallback_timer_witness :
    (runConn [ConnEvent.wsError, ConnEvent.wsClose]).liveTimers.length ≤ 1
      ∧ startFallbackIfNone
          { liveTimers := [0], fallbackField := some 0, nextTimer := 1 }
        = { liveTimers := [0], fallbackField := some 0, nextTimer := 1 }
      ∧ (connStep (runConn [ConnEvent.wsError, ConnEvent.wsClose])
          ConnEvent.wsOpen).liveTimers = []
      ∧ (connStep (runConn [ConnEvent.wsError, ConnEvent.wsClose])
          ConnEvent.wsOpen).fallbackField = none :=
  C9_fallback_timer [ConnEvent.wsError, ConnEvent.wsClose]
    { liveTimers := [0], fallbackField := some 0, nextTimer := 1 } (by decide)

end Genesis
